import Mathlib

/-!
Verification of the two presentation-building scripts of this repository,
`presetaion_only_with_images.py` (namespace `Script1`) and
`presetaion_with_images_and_music.py` (namespace `Script2`).

Modelling conventions (shallow embedding):
* Python float arithmetic on EMU / pixel dimensions is modelled by exact
  rational arithmetic (`ℚ`); Python `int()` is truncation toward zero
  (`pyInt`).  A Python `ZeroDivisionError` is modelled by `Except.error ()`.
* Python strings are Lean `String`s; `str.lower()` is modelled by mapping
  `Char.toLower` over the characters (the repository's file names are
  ASCII), and `str.endswith(suffix)` by a character-list suffix test.
* `sorted(...)` on file names is a stable lexicographic sort by Unicode
  code point; it is modelled by insertion sort (stable) over a
  code-point-lexicographic comparison `strLe`.  Directory listings have
  pairwise-distinct names, so sorting the modelled entries by name agrees
  with iterating over the sorted name list as the scripts do.
* Calls into `python-pptx` (`add_slide`, `add_picture`, `save`,
  `slide_show_transition`, `add_movie`) are modelled by explicit slide
  records and are assumed to succeed (happy-path I/O); the arithmetic and
  control flow the scripts themselves perform is modelled exactly.
* A directory tree is an `FSEntry` list: a root-level file with its native
  pixel size, or a subdirectory with its contained files (the scripts
  descend exactly one level).
-/

/-- Python `int()` applied to a rational value: truncation toward zero. -/
def pyInt (q : ℚ) : ℤ := if 0 ≤ q then ⌊q⌋ else ⌈q⌉

/-- Code-point-lexicographic comparison of character lists, as Python
compares strings: elementwise by code point, ties broken by length. -/
def charListLe : List Char → List Char → Bool
  | [], _ => true
  | _ :: _, [] => false
  | a :: as, b :: bs =>
    if a.toNat < b.toNat then true
    else if b.toNat < a.toNat then false
    else charListLe as bs

/-- Python string `<=` (lexicographic by code point). -/
def strLe (a b : String) : Bool := charListLe a.data b.data

/-- Strict version of `strLe`. -/
def strLt (a b : String) : Bool := strLe a b && !(strLe b a)

/-- Python `sorted(...)` with a key function: a stable sort by the key
string.  Insertion sort is stable, matching Python's stable sort. -/
def pySorted {α : Type} (key : α → String) (l : List α) : List α :=
  List.insertionSort (fun a b => strLe (key a) (key b) = true) l

/-- Python `str.lower()`, for the ASCII names used by the scripts. -/
def pyLower (s : String) : String := ⟨s.data.map Char.toLower⟩

/-- Python `str.endswith(suffix)`. -/
def pyEndsWith (s suffix : String) : Bool := suffix.data.isSuffixOf s.data

/-- `os.path.join`, for the relative POSIX paths the scripts build. -/
def pathJoin (a b : String) : String := a ++ "/" ++ b

/-- A picture placement in EMU: the `left`, `top`, `width`, `height`
attributes the scripts assign on a picture shape. -/
structure Placement where
  left : ℤ
  top : ℤ
  width : ℤ
  height : ℤ
deriving DecidableEq

/-- A shape on a slide.  A picture records the image path and its
placement; `height = none` means the script did not set the height and the
library scaled it from the native size. -/
inductive Shape where
  | picture (path : String) (left top width : ℤ) (height : Option ℤ)
  | titleText (text : String)
  | movie (path : String)
deriving DecidableEq

/-- The slide-show transition settings of one slide, as set by
`set_automatic_transition` in the second script. -/
structure Transition where
  advance_on_click : Bool
  advance_on_time : Bool
  advance_time : ℕ
deriving DecidableEq

/-- One emitted slide: its shapes and (second script) its transition;
`transition = none` means the script never set one. -/
structure Slide where
  shapes : List Shape
  transition : Option Transition
deriving DecidableEq

/-- One entry of the images directory: a root-level file with its native
pixel size, or a subdirectory with its contained files. -/
inductive FSEntry where
  | file (name : String) (wpx hpx : ℕ)
  | dir (name : String) (files : List (String × ℕ × ℕ))
deriving DecidableEq

/-- The name by which a directory entry is listed and sorted. -/
def FSEntry.name : FSEntry → String
  | .file n _ _ => n
  | .dir n _ => n

/-- A slide-emission event, used to state ordering properties: an image
slide (with the image path) or a subdirectory title slide. -/
inductive Emitted where
  | image (path : String)
  | title (name : String)
deriving DecidableEq

/-- Sort a list of file names as `sorted(os.listdir(...))` does. -/
def sortNames (l : List String) : List String := pySorted id l

/-- Sort directory entries by name, as iterating `sorted(os.listdir(...))`
does when the (distinct) names are classified back into entries. -/
def sortEntries (l : List FSEntry) : List FSEntry := pySorted FSEntry.name l

/-- Sort subdirectory files (name, native width, native height) by name. -/
def sortFiles (l : List (String × ℕ × ℕ)) : List (String × ℕ × ℕ) :=
  pySorted (fun f => f.1) l

/-- Sort (subdirectory name, subdirectory files) pairs by name. -/
def sortDirs (l : List (String × List (String × ℕ × ℕ))) :
    List (String × List (String × ℕ × ℕ)) :=
  pySorted (fun d => d.1) l

/-- The files of a subdirectory entry (empty for a plain file). -/
def FSEntry.subFiles : FSEntry → List (String × ℕ × ℕ)
  | .file _ _ _ => []
  | .dir _ fs => fs

namespace Script1

/-- `IMAGE_DIR = 'images'`. -/
def IMAGE_DIR : String := "images"

/-- `OUTPUT_FILENAME = 'presentation_from_images.pptx'`. -/
def OUTPUT_FILENAME : String := "presentation_from_images.pptx"

/-- `SUPPORTED_EXTENSIONS` of the first script (no `.tif`). -/
def SUPPORTED_EXTENSIONS : List String :=
  [".png", ".jpg", ".jpeg", ".gif", ".bmp", ".tiff"]

/-- `item_name.lower().endswith(SUPPORTED_EXTENSIONS)`. -/
def isSupportedImage (n : String) : Bool :=
  SUPPORTED_EXTENSIONS.any (fun e => pyEndsWith (pyLower n) e)

/-- Default python-pptx canvas width: 10 inches in EMU. -/
def SLIDE_WIDTH : ℕ := 9144000

/-- Default python-pptx canvas height: 7.5 inches in EMU. -/
def SLIDE_HEIGHT : ℕ := 6858000

/-- The fit-to-canvas computation of `add_image_slide` (first script,
lines 32-55): `aspect_ratio = w / h` (raising `ZeroDivisionError` when
`h = 0`), the `slide_width / slide_height > aspect_ratio` test (raising
when `H = 0`), then the height- or width-constrained size, the centering
offsets, and the four `int(...)` assignments. -/
def fit_to_canvas (W H w h : ℕ) : Except Unit Placement :=
  if h = 0 then Except.error ()
  else
    let aspect : ℚ := (w : ℚ) / (h : ℚ)
    if H = 0 then Except.error ()
    else if (W : ℚ) / (H : ℚ) > aspect then
      let height : ℚ := (H : ℚ)
      let width : ℚ := aspect * height
      Except.ok ⟨pyInt (((W : ℚ) - width) / 2), pyInt (((H : ℚ) - height) / 2),
                 pyInt width, pyInt height⟩
    else if w = 0 then Except.error ()
    else
      let width : ℚ := (W : ℚ)
      let height : ℚ := width / aspect
      Except.ok ⟨pyInt (((W : ℚ) - width) / 2), pyInt (((H : ℚ) - height) / 2),
                 pyInt width, pyInt height⟩

/-- `add_image_slide` of the first script: on success the slide holds the
placed picture and the function returns `True`; on an error (a modelled
`ZeroDivisionError` in the geometry) the handler removes the partially
created picture shape from the slide and returns `False`.  The slide
itself is already part of the presentation in either case. -/
def add_image_slide (W H : ℕ) (path : String) (w h : ℕ) : Slide × Bool :=
  match fit_to_canvas W H w h with
  | Except.ok p =>
      (Slide.mk [Shape.picture path p.left p.top p.width (some p.height)] none, true)
  | Except.error _ => (Slide.mk [] none, false)

/-- `add_title_slide` of the first script: the layout's title placeholder
receives the subdirectory name (happy path). -/
def add_title_slide (t : String) : Slide := Slide.mk [Shape.titleText t] none

/-- The two sequential loops of `create_presentation` (lines 121-167),
parametrised by what is produced per image and per title: first every
root-level supported image in sorted order, then every subdirectory in
sorted order, each contributing its title followed by its sorted
supported images. -/
def traverse {α : Type} (img : String → ℕ → ℕ → α) (tit : String → α)
    (root : List FSEntry) : List α :=
  ((sortEntries root).filterMap fun e =>
    match e with
    | FSEntry.file n w h =>
        if isSupportedImage n then some (img (pathJoin IMAGE_DIR n) w h) else none
    | FSEntry.dir _ _ => none)
  ++ ((sortEntries root).flatMap fun e =>
    match e with
    | FSEntry.dir n fs =>
        tit n :: ((sortFiles fs).filterMap fun f =>
          if isSupportedImage f.1 then
            some (img (pathJoin (pathJoin IMAGE_DIR n) f.1) f.2.1 f.2.2)
          else none)
    | FSEntry.file _ _ _ => [])

/-- The slide-emission order of the first script. -/
def order (root : List FSEntry) : List Emitted :=
  traverse (fun p _ _ => Emitted.image p) Emitted.title root

/-- The name of a root-level file that passes the first script's
allow-list (`none` for subdirectories and unsupported files). -/
def rootImageName : FSEntry → Option String
  | FSEntry.file n _ _ => if isSupportedImage n then some n else none
  | FSEntry.dir _ _ => none

/-- The (name, files) pair of a subdirectory entry. -/
def dirPair : FSEntry → Option (String × List (String × ℕ × ℕ))
  | FSEntry.dir n fs => some (n, fs)
  | FSEntry.file _ _ _ => none

/-- The name of a subdirectory file that passes the first script's
allow-list. -/
def subImageName (f : String × ℕ × ℕ) : Option String :=
  if isSupportedImage f.1 then some f.1 else none

/-- Built from the spec's words, for comparison with `Script1.order`:
"root-level images in lexicographic order all come before any
subdirectory content, and each subdirectory contributes its title slide
followed by its images in lexicographic order". -/
def specOrder (root : List FSEntry) : List Emitted :=
  (sortNames (root.filterMap rootImageName)).map
    (fun n => Emitted.image (pathJoin IMAGE_DIR n))
  ++ (sortDirs (root.filterMap dirPair)).flatMap (fun d =>
      Emitted.title d.1 ::
        (sortNames (d.2.filterMap subImageName)).map
          (fun n => Emitted.image (pathJoin (pathJoin IMAGE_DIR d.1) n)))

/-- Observable outcome of one run of the first script. -/
structure RunResult where
  slides : List Slide
  root_images_processed : ℕ
  savedFile : Option String
  missingReported : Bool
deriving DecidableEq

/-- `create_presentation` (first script): `none` models a missing
`IMAGE_DIR` (report and return, nothing saved); otherwise both loops run
and the presentation is saved to `OUTPUT_FILENAME` (happy-path save). -/
def create_presentation (listing : Option (List FSEntry)) : RunResult :=
  match listing with
  | none => RunResult.mk [] 0 none true
  | some root =>
      RunResult.mk
        (traverse (fun p w h => (add_image_slide SLIDE_WIDTH SLIDE_HEIGHT p w h).1)
          add_title_slide root)
        (((sortEntries root).filterMap fun e =>
          match e with
          | FSEntry.file n w h =>
              if isSupportedImage n then
                some (add_image_slide SLIDE_WIDTH SLIDE_HEIGHT (pathJoin IMAGE_DIR n) w h).2
              else none
          | FSEntry.dir _ _ => none).count true)
        (some OUTPUT_FILENAME)
        false

end Script1

namespace Script2

/-- `IMAGES_DIR = 'images'`. -/
def IMAGES_DIR : String := "images"

/-- `MUSIC_DIR = 'music'`. -/
def MUSIC_DIR : String := "music"

/-- `OUTPUT_FILENAME = 'presentation.pptx'`. -/
def OUTPUT_FILENAME : String := "presentation.pptx"

/-- `ALLOWED_IMAGE_EXTENSIONS` of the second script (adds `.tif`). -/
def ALLOWED_IMAGE_EXTENSIONS : List String :=
  [".png", ".jpg", ".jpeg", ".gif", ".bmp", ".tiff", ".tif"]

/-- `ALLOWED_MUSIC_EXTENSIONS`. -/
def ALLOWED_MUSIC_EXTENSIONS : List String := [".mp3", ".wav", ".wma"]

/-- `SLIDE_TRANSITION_SECONDS = 1`. -/
def SLIDE_TRANSITION_SECONDS : ℕ := 1

/-- `item_name.lower().endswith(ALLOWED_IMAGE_EXTENSIONS)`. -/
def isAllowedImage (n : String) : Bool :=
  ALLOWED_IMAGE_EXTENSIONS.any (fun e => pyEndsWith (pyLower n) e)

/-- `filename.lower().endswith(ALLOWED_MUSIC_EXTENSIONS)`. -/
def isAllowedMusic (n : String) : Bool :=
  ALLOWED_MUSIC_EXTENSIONS.any (fun e => pyEndsWith (pyLower n) e)

/-- Canvas width set by the second script: 16 inches in EMU. -/
def SLIDE_WIDTH : ℕ := 14630400

/-- Canvas height set by the second script: 9 inches in EMU. -/
def SLIDE_HEIGHT : ℕ := 8229600

/-- Result of the sizing phase of `add_image_slide` (second script): the
zero-size check fires and resize/positioning is skipped, or a placement
is computed. -/
inductive Fit where
  | skipped
  | placed (p : Placement)
deriving DecidableEq

/-- The sizing computation of `add_image_slide` (second script, lines
55-85): the zero-size guard comes before any division; then
`img_aspect_ratio = w / h`, the `slide_width_emu / slide_height_emu`
comparison (raising when `H = 0`), `int(...)` on the scaled dimension,
and centering from the already-rounded width/height. -/
def fit_to_canvas (W H w h : ℕ) : Except Unit Fit :=
  if w = 0 || h = 0 then Except.ok Fit.skipped
  else
    let aspect : ℚ := (w : ℚ) / (h : ℚ)
    if H = 0 then Except.error ()
    else if (W : ℚ) / (H : ℚ) > aspect then
      let nh : ℤ := (H : ℤ)
      let nw : ℤ := pyInt ((H : ℚ) * aspect)
      Except.ok (Fit.placed ⟨pyInt (((W : ℚ) - (nw : ℚ)) / 2),
        pyInt (((H : ℚ) - (nh : ℚ)) / 2), nw, nh⟩)
    else
      let nw : ℤ := (W : ℤ)
      let nh : ℤ := pyInt ((W : ℚ) / aspect)
      Except.ok (Fit.placed ⟨pyInt (((W : ℚ) - (nw : ℚ)) / 2),
        pyInt (((H : ℚ) - (nh : ℚ)) / 2), nw, nh⟩)

/-- `set_automatic_transition` (second script, lines 20-31):
`advance_on_click = False`, `advance_on_time = True`,
`advance_time = seconds * 1000`. -/
def set_automatic_transition (seconds : ℕ) (s : Slide) : Slide :=
  Slide.mk s.shapes (some (Transition.mk false true (seconds * 1000)))

/-- `add_image_slide` of the second script.  The picture is first added at
a temporary placement (`Emu(0), Emu(0), width=Emu(914400)`, height scaled
by the library).  On a zero-size image the resize/positioning is skipped
(the temporary picture stays — its removal is commented out in the
source) but the transition is still set; otherwise the computed placement
is applied and the transition set.  A modelled division error is caught
by the broad handler, leaving the slide with the temporary picture and no
transition. -/
def add_image_slide (W H : ℕ) (path : String) (w h : ℕ) : Slide :=
  let temp : Shape := Shape.picture path 0 0 914400 none
  match fit_to_canvas W H w h with
  | Except.ok Fit.skipped =>
      set_automatic_transition SLIDE_TRANSITION_SECONDS (Slide.mk [temp] none)
  | Except.ok (Fit.placed p) =>
      set_automatic_transition SLIDE_TRANSITION_SECONDS
        (Slide.mk [Shape.picture path p.left p.top p.width (some p.height)] none)
  | Except.error _ => Slide.mk [temp] none

/-- `add_title_slide` of the second script: the "Title Only" layout's
title placeholder receives the text, and the transition is set. -/
def add_title_slide (t : String) : Slide :=
  set_automatic_transition SLIDE_TRANSITION_SECONDS (Slide.mk [Shape.titleText t] none)

/-- The single pass of the `__main__` block (lines 262-295), parametrised
by what is produced per image and per title: the sorted root entries in
one loop, a supported image file contributing one slide in place, a
subdirectory contributing its title slide followed by its sorted
supported images in place. -/
def traverse {α : Type} (img : String → ℕ → ℕ → α) (tit : String → α)
    (root : List FSEntry) : List α :=
  (sortEntries root).flatMap fun e =>
    match e with
    | FSEntry.file n w h =>
        if isAllowedImage n then [img (pathJoin IMAGES_DIR n) w h] else []
    | FSEntry.dir n fs =>
        tit n :: ((sortFiles fs).filterMap fun f =>
          if isAllowedImage f.1 then
            some (img (pathJoin (pathJoin IMAGES_DIR n) f.1) f.2.1 f.2.2)
          else none)

/-- The slide-emission order of the second script. -/
def order (root : List FSEntry) : List Emitted :=
  traverse (fun p _ _ => Emitted.image p) Emitted.title root

/-- `find_music_file` (lines 170-183): `none` models a missing
`MUSIC_DIR`; otherwise the first file of the (unsorted) `os.listdir`
listing with an allow-listed extension is returned. -/
def find_music_file (listing : Option (List String)) : Option String :=
  match listing with
  | none => none
  | some names => (names.find? isAllowedMusic).map (fun n => pathJoin MUSIC_DIR n)

/-- `add_background_music` (lines 185-228): with at least one slide, the
movie shape for the music file is added to the first slide only. -/
def add_background_music (slides : List Slide) (path : String) : List Slide :=
  match slides with
  | [] => []
  | s :: rest => Slide.mk (s.shapes ++ [Shape.movie path]) s.transition :: rest

/-- How the run of the second script's `__main__` block could observe the
images directory. -/
inductive DirAccess where
  | missing
  | unlistable
  | ok (entries : List FSEntry)

/-- Observable outcome of one run of the second script. -/
structure RunResult where
  slides : List Slide
  savedFile : Option String
  exitCode : ℕ
  fatalReported : Bool
deriving DecidableEq

/-- The `__main__` block of the second script (lines 232-326): a missing
images directory or an unlistable one is fatal (`exit(1)`, reported,
nothing saved); otherwise the single pass runs, music (when found and
when at least one slide exists) is attached, and the file is saved only
when `processed_slides > 0`. -/
def mainRun (access : DirAccess) (music : Option (List String)) : RunResult :=
  match access with
  | DirAccess.missing => RunResult.mk [] none 1 true
  | DirAccess.unlistable => RunResult.mk [] none 1 true
  | DirAccess.ok root =>
      let slides := traverse (add_image_slide SLIDE_WIDTH SLIDE_HEIGHT) add_title_slide root
      let withMusic :=
        match find_music_file music with
        | some m => if 0 < slides.length then add_background_music slides m else slides
        | none => slides
      if 0 < slides.length then RunResult.mk withMusic (some OUTPUT_FILENAME) 0 false
      else RunResult.mk withMusic none 0 false

end Script2

/-- The fit-to-canvas contract: aspect preserved to within rounding (the
rounded dimension is the floor of the exact one, stated by the integer
bounds), the constrained dimension equal to the canvas dimension, and a
centered, non-overflowing placement. -/
def placementOK (W H w h : ℕ) (p : Placement) : Prop :=
  (if (W : ℚ) / (H : ℚ) > (w : ℚ) / (h : ℚ) then
    p.height = (H : ℤ) ∧ p.width * (h : ℤ) ≤ (w : ℤ) * (H : ℤ)
      ∧ (w : ℤ) * (H : ℤ) < (p.width + 1) * (h : ℤ)
  else
    p.width = (W : ℤ) ∧ p.height * (w : ℤ) ≤ (h : ℤ) * (W : ℤ)
      ∧ (h : ℤ) * (W : ℤ) < (p.height + 1) * (w : ℤ))
  ∧ 0 ≤ p.left ∧ 0 ≤ p.top ∧ p.left + p.width ≤ (W : ℤ) ∧ p.top + p.height ≤ (H : ℤ)

/-- An emitted slide is an image slide only for a file whose name passes
the allow-list test, placed either at the root or inside a subdirectory. -/
def fromAllowedName (allowed : String → Bool) (baseDir : String) : Emitted → Prop
  | Emitted.image p => ∃ n, allowed n = true ∧
      (p = pathJoin baseDir n ∨ ∃ d, p = pathJoin (pathJoin baseDir d) n)
  | Emitted.title _ => True

theorem pyInt_of_nonneg {q : ℚ} (h : 0 ≤ q) : pyInt q = ⌊q⌋ := if_pos h

theorem pyInt_natCast (n : ℕ) : pyInt (n : ℚ) = (n : ℤ) := by
  rw [pyInt_of_nonneg (by positivity)]
  exact_mod_cast Int.floor_natCast n

/-- Helper: the second script's zero-size guard fires before any
division. -/
theorem fit2_skipped_of_zero {W H w h : ℕ} (hz : w = 0 ∨ h = 0) :
    Script2.fit_to_canvas W H w h = Except.ok Script2.Fit.skipped := by
  have hcond : (decide (w = 0) || decide (h = 0)) = true := by
    rcases hz with hz | hz <;> simp [hz]
  unfold Script2.fit_to_canvas
  rw [if_pos (by simpa using hcond)]

/-- Helper: the first script's geometry raises on a zero native height. -/
theorem fit1_error_of_zero_height (W H w : ℕ) :
    Script1.fit_to_canvas W H w 0 = Except.error () := by
  unfold Script1.fit_to_canvas
  rw [if_pos rfl]

/-- C2 counterexample: on the first script a zero native height reaches
`aspect_ratio = img_native_width / img_native_height` with no prior check,
and the division raises (modelled `Except.error ()`): the claim that in
both scripts the zero dimension is detected before any division and the
placement step skipped is false for the first script. -/
theorem zero_height_division_error_script1 :
    Script1.fit_to_canvas Script1.SLIDE_WIDTH Script1.SLIDE_HEIGHT 3 0 = Except.error () := rfl

/-- C2 (amended): the second script detects a zero dimension before any
division and skips resize/positioning; the first script has no such
check, and a zero native height raises a `ZeroDivisionError` that its
generic handler catches, aborting the add. -/
theorem zero_size_detection_divergence (W H w h : ℕ) :
    (w = 0 ∨ h = 0 → Script2.fit_to_canvas W H w h = Except.ok Script2.Fit.skipped)
    ∧ (h = 0 → Script1.fit_to_canvas W H w h = Except.error ()) := by
  constructor
  · exact fit2_skipped_of_zero
  · intro hz
    subst hz
    exact fit1_error_of_zero_height W H w

/-- C2 witness: at native size 5 × 0 the second script skips placement and
the first script raises. -/
theorem zero_size_detection_divergence_witness :
    Script2.fit_to_canvas 4 3 5 0 = Except.ok Script2.Fit.skipped
    ∧ Script1.fit_to_canvas 4 3 5 0 = Except.error () :=
  ⟨(zero_size_detection_divergence 4 3 5 0).1 (Or.inr rfl),
   (zero_size_detection_divergence 4 3 5 0).2 rfl⟩

/-- C6 counterexample: for a zero-size image the emitted slide of the
second script is not shape-less — it still holds the picture shape added
at the temporary placement before the zero check (its removal is
commented out in the source). -/
theorem zero_size_slide_keeps_picture_shape :
    (Script2.add_image_slide Script2.SLIDE_WIDTH Script2.SLIDE_HEIGHT "images/zero.png" 0 0).shapes
      = [Shape.picture "images/zero.png" 0 0 914400 none] := rfl

/-- C6 (amended): on a zero-size image the second script logs and
proceeds, leaving the emitted slide with the picture shape at its
temporary placement (left 0, top 0, width 914400 EMU, height scaled by
the library), skipping only resize/centering, and still setting the
automatic transition. -/
theorem zero_size_slide_temporary_picture (W H : ℕ) (path : String) (w h : ℕ)
    (hz : w = 0 ∨ h = 0) :
    Script2.add_image_slide W H path w h
      = Slide.mk [Shape.picture path 0 0 914400 none]
          (some (Transition.mk false true (Script2.SLIDE_TRANSITION_SECONDS * 1000))) := by
  have hfit := @fit2_skipped_of_zero W H w h hz
  unfold Script2.add_image_slide
  rw [hfit]
  rfl

/-- C6 witness: the zero-size slide at a concrete input. -/
theorem zero_size_slide_temporary_picture_witness :
    Script2.add_image_slide 4 3 "images/zero.png" 0 1
      = Slide.mk [Shape.picture "images/zero.png" 0 0 914400 none]
          (some (Transition.mk false true (Script2.SLIDE_TRANSITION_SECONDS * 1000))) :=
  zero_size_slide_temporary_picture 4 3 "images/zero.png" 0 1 (Or.inl rfl)

/-- C7: a missing root image directory yields no output file and is
reported in both scripts; in the second script it — and a failure to list
the root directory — terminates the process with exit status 1. -/
theorem missing_root_directory_behaviour :
    Script1.create_presentation none = Script1.RunResult.mk [] 0 none true
    ∧ (∀ m, Script2.mainRun Script2.DirAccess.missing m = Script2.RunResult.mk [] none 1 true)
    ∧ (∀ m, Script2.mainRun Script2.DirAccess.unlistable m = Script2.RunResult.mk [] none 1 true) :=
  ⟨rfl, fun _ => rfl, fun _ => rfl⟩

/-- C9: whenever the geometry of the first script's `add_image_slide`
fails (modelled division error), the partially created picture shape is
removed but the slide itself stays, and the function returns `False`; at
run level a failing image (zero native height) still contributes an empty
slide to the saved document while `root_images_processed` stays 0. -/
theorem failed_image_keeps_empty_slide :
    (∀ W H path w h, Script1.fit_to_canvas W H w h = Except.error () →
      Script1.add_image_slide W H path w h = (Slide.mk [] none, false))
    ∧ Script1.create_presentation (some [FSEntry.file "bad.png" 3 0])
        = Script1.RunResult.mk [Slide.mk [] none] 0 (some Script1.OUTPUT_FILENAME) false := by
  constructor
  · intro W H path w h herr
    unfold Script1.add_image_slide
    rw [herr]
  · rfl

/-- C9 witness: the first conjunct applied at a concrete zero-height
image. -/
theorem failed_image_keeps_empty_slide_witness :
    Script1.add_image_slide 4 3 "x.png" 3 0 = (Slide.mk [] none, false) :=
  failed_image_keeps_empty_slide.1 4 3 "x.png" 3 0 rfl

/-- C10: with an existing root that yields no slides the scripts diverge:
the first script always saves to its fixed output path, while the second
saves only when at least one slide was added. -/
theorem empty_yield_save_divergence :
    (∀ entries, (Script1.create_presentation (some entries)).savedFile
        = some Script1.OUTPUT_FILENAME)
    ∧ (∀ entries music, (Script2.mainRun (Script2.DirAccess.ok entries) music).slides = [] →
        (Script2.mainRun (Script2.DirAccess.ok entries) music).savedFile = none) := by
  constructor
  · intro entries
    rfl
  · intro entries music hempty
    revert hempty
    unfold Script2.mainRun
    rcases Script2.find_music_file music with _ | m
    · dsimp only
      split
      · intro hempty
        simp_all
      · intro _
        rfl
    · dsimp only
      split
      · rename_i hlen
        intro hempty
        rcases hsl : Script2.traverse (Script2.add_image_slide Script2.SLIDE_WIDTH
            Script2.SLIDE_HEIGHT) Script2.add_title_slide entries with _ | ⟨s, rest⟩
        · rw [hsl] at hlen
          simp at hlen
        · rw [hsl] at hempty
          simp [Script2.add_background_music] at hempty
      · intro _
        rfl

/-- C10 witness: a root with a single unsupported file yields no slides;
the second script saves nothing there while the first script still saves. -/
theorem empty_yield_save_divergence_witness :
    (Script2.mainRun (Script2.DirAccess.ok [FSEntry.file "a.txt" 1 1]) none).slides = []
    ∧ (Script2.mainRun (Script2.DirAccess.ok [FSEntry.file "a.txt" 1 1]) none).savedFile = none
    ∧ (Script1.create_presentation (some [FSEntry.file "a.txt" 1 1])).savedFile
        = some Script1.OUTPUT_FILENAME :=
  ⟨by decide, empty_yield_save_divergence.2 [FSEntry.file "a.txt" 1 1] none (by decide),
   empty_yield_save_divergence.1 [FSEntry.file "a.txt" 1 1]⟩

/-- Helper: `List.find?` returns the first match. -/
theorem find?_first {α : Type} {p : α → Bool} :
    ∀ (pre : List α), (∀ y ∈ pre, p y = false) → ∀ x post, p x = true →
      List.find? p (pre ++ x :: post) = some x := by
  intro pre
  induction pre with
  | nil =>
      intro _ x post hx
      simpa using List.find?_cons_of_pos _ hx
  | cons a t ih =>
      intro hpre x post hx
      have ha : p a = false := hpre a (List.mem_cons_self a t)
      rw [List.cons_append, List.find?_cons_of_neg _ (by simp [ha]),
        ih (fun y hy => hpre y (List.mem_cons_of_mem a hy)) x post hx]

/-- C4 counterexample: with the music directory listing `b.wav` before
`a.mp3`, the second script embeds `b.wav` — the first file in listing
order — not `a.mp3`, the first in sorted order: `find_music_file`
iterates `os.listdir` without sorting. -/
theorem music_pick_ignores_sorted_order :
    Script2.find_music_file (some ["b.wav", "a.mp3"])
      = some (pathJoin Script2.MUSIC_DIR "b.wav")
    ∧ Script2.find_music_file (some ["b.wav", "a.mp3"])
      ≠ some (pathJoin Script2.MUSIC_DIR "a.mp3") :=
  ⟨rfl, by decide⟩

/-- C4 (amended): exactly one audio file is embedded — the first file of
the directory's (unsorted) listing with an allow-listed extension — and
it is attached as one movie shape on the first slide only; the remaining
slides are unchanged. -/
theorem music_first_listed_first_slide_only
    (pre : List String) (x : String) (post : List String) (s : Slide) (rest : List Slide)
    (hpre : ∀ y ∈ pre, Script2.isAllowedMusic y = false)
    (hx : Script2.isAllowedMusic x = true) :
    Script2.find_music_file (some (pre ++ x :: post))
      = some (pathJoin Script2.MUSIC_DIR x)
    ∧ Script2.add_background_music (s :: rest) (pathJoin Script2.MUSIC_DIR x)
      = Slide.mk (s.shapes ++ [Shape.movie (pathJoin Script2.MUSIC_DIR x)]) s.transition
        :: rest := by
  constructor
  · unfold Script2.find_music_file
    dsimp only
    rw [find?_first pre hpre x post hx]
    rfl
  · rfl

/-- C4 witness: a listing with a non-audio file first, then `b.wav`, then
`a.mp3`. -/
theorem music_first_listed_first_slide_only_witness :
    Script2.find_music_file (some (["cover.jpg"] ++ "b.wav" :: ["a.mp3"]))
      = some (pathJoin Script2.MUSIC_DIR "b.wav")
    ∧ Script2.add_background_music (Slide.mk [] none :: []) (pathJoin Script2.MUSIC_DIR "b.wav")
      = Slide.mk ([] ++ [Shape.movie (pathJoin Script2.MUSIC_DIR "b.wav")]) none :: [] :=
  music_first_listed_first_slide_only ["cover.jpg"] "b.wav" ["a.mp3"]
    (Slide.mk [] none) [] (by decide) (by decide)

/-- Helper: integer bounds for the floor of `(a*b)/c`. -/
theorem floor_scale_bounds (a b c : ℕ) (hc : 0 < c) :
    ⌊((a : ℚ) * (b : ℚ)) / (c : ℚ)⌋ * (c : ℤ) ≤ (a : ℤ) * (b : ℤ)
    ∧ (a : ℤ) * (b : ℤ) < (⌊((a : ℚ) * (b : ℚ)) / (c : ℚ)⌋ + 1) * (c : ℤ) := by
  have hcQ : (0:ℚ) < (c:ℚ) := by exact_mod_cast hc
  constructor
  · exact_mod_cast (le_div_iff hcQ).mp (Int.floor_le (((a : ℚ) * (b : ℚ)) / (c : ℚ)))
  · exact_mod_cast (div_lt_iff hcQ).mp (Int.lt_floor_add_one (((a : ℚ) * (b : ℚ)) / (c : ℚ)))

/-- Helper: a dimension of size at most `s ≤ C` centered on an axis of
size `C` by `int((C - s)/2)` stays inside `[0, C]`. -/
theorem centered_bounds (C : ℕ) (s : ℚ) (hsC : s ≤ (C : ℚ)) {d : ℤ} (hds : (d : ℚ) ≤ s) :
    0 ≤ pyInt (((C : ℚ) - s) / 2) ∧ pyInt (((C : ℚ) - s) / 2) + d ≤ (C : ℤ) := by
  have hnn : (0:ℚ) ≤ ((C : ℚ) - s) / 2 := by linarith
  rw [pyInt_of_nonneg hnn]
  refine ⟨Int.floor_nonneg.mpr hnn, ?_⟩
  have h1 : (⌊((C : ℚ) - s) / 2⌋ : ℚ) ≤ ((C : ℚ) - s) / 2 := Int.floor_le _
  have h2 : (⌊((C : ℚ) - s) / 2⌋ : ℚ) + (d : ℚ) ≤ (C : ℚ) := by linarith
  exact_mod_cast h2

/-- Helper: the first script's geometry meets the placement contract. -/
theorem fit1_ok_spec (W H w h : ℕ) (hW : 0 < W) (hH : 0 < H) (hw : 0 < w) (hh : 0 < h) :
    ∃ p, Script1.fit_to_canvas W H w h = Except.ok p ∧ placementOK W H w h p := by
  have hh' : h ≠ 0 := hh.ne'
  have hH' : H ≠ 0 := hH.ne'
  have hw' : w ≠ 0 := hw.ne'
  have hhQ : (0:ℚ) < (h:ℚ) := by exact_mod_cast hh
  have hHQ : (0:ℚ) < (H:ℚ) := by exact_mod_cast hH
  have hwQ : (0:ℚ) < (w:ℚ) := by exact_mod_cast hw
  simp only [Script1.fit_to_canvas]
  rw [if_neg hh', if_neg hH']
  by_cases hbr : (W : ℚ) / (H : ℚ) > (w : ℚ) / (h : ℚ)
  · rw [if_pos hbr]
    refine ⟨_, rfl, ?_⟩
    have wEq : (w:ℚ)/(h:ℚ) * (H:ℚ) = ((w:ℚ) * (H:ℚ))/(h:ℚ) := by ring
    have wFloor : pyInt ((w:ℚ)/(h:ℚ) * (H:ℚ)) = ⌊((w:ℚ) * (H:ℚ))/(h:ℚ)⌋ := by
      rw [wEq, pyInt_of_nonneg (by positivity)]
    have s_lt_W : (w:ℚ)/(h:ℚ) * (H:ℚ) < (W:ℚ) := (lt_div_iff hHQ).mp hbr
    have hxd : ((pyInt ((w:ℚ)/(h:ℚ) * (H:ℚ)) : ℤ) : ℚ) ≤ (w:ℚ)/(h:ℚ) * (H:ℚ) := by
      rw [wFloor, wEq]
      exact Int.floor_le _
    have hx := centered_bounds W ((w:ℚ)/(h:ℚ) * (H:ℚ)) (le_of_lt s_lt_W) hxd
    have hyd : ((pyInt ((H:ℚ)) : ℤ) : ℚ) ≤ (H:ℚ) := by
      rw [pyInt_natCast]
      push_cast
      exact le_rfl
    have hy := centered_bounds H ((H:ℚ)) le_rfl hyd
    unfold placementOK
    rw [if_pos hbr]
    dsimp only
    refine ⟨⟨pyInt_natCast H, ?_, ?_⟩, hx.1, hy.1, hx.2, ?_⟩
    · rw [wFloor]
      exact (floor_scale_bounds w H h hh).1
    · rw [wFloor]
      exact (floor_scale_bounds w H h hh).2
    · rw [pyInt_natCast] at hy ⊢
      exact hy.2
  · rw [if_neg hbr, if_neg hw']
    refine ⟨_, rfl, ?_⟩
    have hEq : (W:ℚ)/((w:ℚ)/(h:ℚ)) = ((h:ℚ) * (W:ℚ))/(w:ℚ) := by
      rw [div_div_eq_mul_div]
      ring
    have hFloor : pyInt ((W:ℚ)/((w:ℚ)/(h:ℚ))) = ⌊((h:ℚ) * (W:ℚ))/(w:ℚ)⌋ := by
      rw [hEq, pyInt_of_nonneg (by positivity)]
    have hWh : (W:ℚ) * (h:ℚ) ≤ (w:ℚ) * (H:ℚ) := (div_le_div_iff hHQ hhQ).mp (not_lt.mp hbr)
    have hs_le_H : (W:ℚ)/((w:ℚ)/(h:ℚ)) ≤ (H:ℚ) := by
      rw [hEq, div_le_iff hwQ]
      linarith [hWh]
    have hxd : ((pyInt ((W:ℚ)) : ℤ) : ℚ) ≤ (W:ℚ) := by
      rw [pyInt_natCast]
      push_cast
      exact le_rfl
    have hx := centered_bounds W ((W:ℚ)) le_rfl hxd
    have hyd : ((pyInt ((W:ℚ)/((w:ℚ)/(h:ℚ))) : ℤ) : ℚ) ≤ (W:ℚ)/((w:ℚ)/(h:ℚ)) := by
      rw [hFloor, hEq]
      exact Int.floor_le _
    have hy := centered_bounds H ((W:ℚ)/((w:ℚ)/(h:ℚ))) hs_le_H hyd
    unfold placementOK
    rw [if_neg hbr]
    dsimp only
    refine ⟨⟨pyInt_natCast W, ?_, ?_⟩, hx.1, hy.1, ?_, hy.2⟩
    · rw [hFloor]
      exact (floor_scale_bounds h W w hw).1
    · rw [hFloor]
      exact (floor_scale_bounds h W w hw).2
    · rw [pyInt_natCast] at hx ⊢
      exact hx.2

/-- Helper: the second script's geometry meets the placement contract. -/
theorem fit2_ok_spec (W H w h : ℕ) (hW : 0 < W) (hH : 0 < H) (hw : 0 < w) (hh : 0 < h) :
    ∃ p, Script2.fit_to_canvas W H w h = Except.ok (Script2.Fit.placed p)
      ∧ placementOK W H w h p := by
  have hh' : h ≠ 0 := hh.ne'
  have hH' : H ≠ 0 := hH.ne'
  have hw' : w ≠ 0 := hw.ne'
  have hhQ : (0:ℚ) < (h:ℚ) := by exact_mod_cast hh
  have hHQ : (0:ℚ) < (H:ℚ) := by exact_mod_cast hH
  have hwQ : (0:ℚ) < (w:ℚ) := by exact_mod_cast hw
  simp only [Script2.fit_to_canvas]
  rw [if_neg (by simp [hw', hh']), if_neg hH']
  by_cases hbr : (W : ℚ) / (H : ℚ) > (w : ℚ) / (h : ℚ)
  · rw [if_pos hbr]
    refine ⟨_, rfl, ?_⟩
    have wEq : (H:ℚ) * ((w:ℚ)/(h:ℚ)) = ((w:ℚ) * (H:ℚ))/(h:ℚ) := by ring
    have wFloor : pyInt ((H:ℚ) * ((w:ℚ)/(h:ℚ))) = ⌊((w:ℚ) * (H:ℚ))/(h:ℚ)⌋ := by
      rw [wEq, pyInt_of_nonneg (by positivity)]
    have s_lt_W : (w:ℚ)/(h:ℚ) * (H:ℚ) < (W:ℚ) := (lt_div_iff hHQ).mp hbr
    have hnw_le : ((pyInt ((H:ℚ) * ((w:ℚ)/(h:ℚ))) : ℤ) : ℚ) ≤ (H:ℚ) * ((w:ℚ)/(h:ℚ)) := by
      rw [wFloor, wEq]
      exact Int.floor_le _
    have hnw_lt_W : ((pyInt ((H:ℚ) * ((w:ℚ)/(h:ℚ))) : ℤ) : ℚ) ≤ (W:ℚ) := by
      linarith [hnw_le, s_lt_W]
    have hx := centered_bounds W ((pyInt ((H:ℚ) * ((w:ℚ)/(h:ℚ))) : ℤ) : ℚ) hnw_lt_W le_rfl
    have hyd : (((H:ℤ) : ℤ) : ℚ) ≤ ((H:ℤ) : ℚ) := le_rfl
    have hysC : ((H:ℤ) : ℚ) ≤ (H : ℚ) := by
      push_cast
      exact le_rfl
    have hy := centered_bounds H ((H:ℤ) : ℚ) hysC le_rfl
    unfold placementOK
    rw [if_pos hbr]
    dsimp only
    refine ⟨⟨rfl, ?_, ?_⟩, hx.1, hy.1, hx.2, hy.2⟩
    · rw [wFloor]
      exact (floor_scale_bounds w H h hh).1
    · rw [wFloor]
      exact (floor_scale_bounds w H h hh).2
  · rw [if_neg hbr]
    refine ⟨_, rfl, ?_⟩
    have hEq : (W:ℚ)/((w:ℚ)/(h:ℚ)) = ((h:ℚ) * (W:ℚ))/(w:ℚ) := by
      rw [div_div_eq_mul_div]
      ring
    have hFloor : pyInt ((W:ℚ)/((w:ℚ)/(h:ℚ))) = ⌊((h:ℚ) * (W:ℚ))/(w:ℚ)⌋ := by
      rw [hEq, pyInt_of_nonneg (by positivity)]
    have hWh : (W:ℚ) * (h:ℚ) ≤ (w:ℚ) * (H:ℚ) := (div_le_div_iff hHQ hhQ).mp (not_lt.mp hbr)
    have hs_le_H : (W:ℚ)/((w:ℚ)/(h:ℚ)) ≤ (H:ℚ) := by
      rw [hEq, div_le_iff hwQ]
      linarith [hWh]
    have hxsC : ((W:ℤ) : ℚ) ≤ (W : ℚ) := by
      push_cast
      exact le_rfl
    have hx := centered_bounds W ((W:ℤ) : ℚ) hxsC le_rfl
    have hnh_le : ((pyInt ((W:ℚ)/((w:ℚ)/(h:ℚ))) : ℤ) : ℚ) ≤ (W:ℚ)/((w:ℚ)/(h:ℚ)) := by
      rw [hFloor, hEq]
      exact Int.floor_le _
    have hnh_le_H : ((pyInt ((W:ℚ)/((w:ℚ)/(h:ℚ))) : ℤ) : ℚ) ≤ (H:ℚ) :=
      le_trans hnh_le hs_le_H
    have hy := centered_bounds H ((pyInt ((W:ℚ)/((w:ℚ)/(h:ℚ))) : ℤ) : ℚ) hnh_le_H le_rfl
    unfold placementOK
    rw [if_neg hbr]
    dsimp only
    refine ⟨⟨rfl, ?_, ?_⟩, hx.1, hy.1, hx.2, hy.2⟩
    · rw [hFloor]
      exact (floor_scale_bounds h W w hw).1
    · rw [hFloor]
      exact (floor_scale_bounds h W w hw).2

/-- C1: for every positive canvas and positive source size, the
fit-to-canvas computation of `add_image_slide` succeeds in both scripts
and yields a placement that preserves the aspect ratio to within
rounding, pins the constrained dimension to the canvas dimension
(height when `W/H > w/h`, width otherwise), and is centered without
overflowing: `0 ≤ left`, `0 ≤ top`, `left + width ≤ W`,
`top + height ≤ H`. -/
theorem fit_within_canvas (W H w h : ℕ) (hW : 0 < W) (hH : 0 < H) (hw : 0 < w) (hh : 0 < h) :
    (∃ p, Script1.fit_to_canvas W H w h = Except.ok p ∧ placementOK W H w h p)
    ∧ (∃ p, Script2.fit_to_canvas W H w h = Except.ok (Script2.Fit.placed p)
        ∧ placementOK W H w h p) :=
  ⟨fit1_ok_spec W H w h hW hH hw hh, fit2_ok_spec W H w h hW hH hw hh⟩

/-- C1 witness: the contract at the default 4:3 canvas of the first
script and a 2 × 1 source image. -/
theorem fit_within_canvas_witness :
    (0 < 9144000 ∧ 0 < 6858000 ∧ 0 < 2 ∧ 0 < 1)
    ∧ ((∃ p, Script1.fit_to_canvas 9144000 6858000 2 1 = Except.ok p
        ∧ placementOK 9144000 6858000 2 1 p)
      ∧ (∃ p, Script2.fit_to_canvas 9144000 6858000 2 1 = Except.ok (Script2.Fit.placed p)
        ∧ placementOK 9144000 6858000 2 1 p)) :=
  ⟨⟨by decide, by decide, by decide, by decide⟩,
   fit_within_canvas 9144000 6858000 2 1 (by decide) (by decide) (by decide) (by decide)⟩

/-- Helper: every element of the first script's traversal comes from a
root-level allow-listed file, a subdirectory allow-listed file, or a
subdirectory title. -/
theorem mem_traverse1_cases {α : Type} (img : String → ℕ → ℕ → α) (tit : String → α)
    (root : List FSEntry) (x : α) (hx : x ∈ Script1.traverse img tit root) :
    (∃ n w h, Script1.isSupportedImage n = true
      ∧ x = img (pathJoin Script1.IMAGE_DIR n) w h)
    ∨ (∃ d n w h, Script1.isSupportedImage n = true
      ∧ x = img (pathJoin (pathJoin Script1.IMAGE_DIR d) n) w h)
    ∨ (∃ n, x = tit n) := by
  unfold Script1.traverse at hx
  rw [List.mem_append] at hx
  rcases hx with hx | hx
  · rw [List.mem_filterMap] at hx
    obtain ⟨e, _, he⟩ := hx
    cases e with
    | file n w h =>
        dsimp only at he
        by_cases hn : Script1.isSupportedImage n = true
        · rw [if_pos hn, Option.some_inj] at he
          exact Or.inl ⟨n, w, h, hn, he.symm⟩
        · rw [if_neg hn] at he
          simp at he
    | dir n fs =>
        simp at he
  · rw [List.mem_flatMap] at hx
    obtain ⟨e, _, he⟩ := hx
    cases e with
    | file n w h =>
        simp at he
    | dir n fs =>
        dsimp only at he
        rw [List.mem_cons] at he
        rcases he with he | he
        · exact Or.inr (Or.inr ⟨n, he⟩)
        · rw [List.mem_filterMap] at he
          obtain ⟨f, _, hf⟩ := he
          by_cases hfn : Script1.isSupportedImage f.1 = true
          · rw [if_pos hfn, Option.some_inj] at hf
            exact Or.inr (Or.inl ⟨n, f.1, f.2.1, f.2.2, hfn, hf.symm⟩)
          · rw [if_neg hfn] at hf
            simp at hf

/-- Helper: every element of the second script's traversal comes from a
root-level allow-listed file, a subdirectory allow-listed file, or a
subdirectory title. -/
theorem mem_traverse2_cases {α : Type} (img : String → ℕ → ℕ → α) (tit : String → α)
    (root : List FSEntry) (x : α) (hx : x ∈ Script2.traverse img tit root) :
    (∃ n w h, Script2.isAllowedImage n = true
      ∧ x = img (pathJoin Script2.IMAGES_DIR n) w h)
    ∨ (∃ d n w h, Script2.isAllowedImage n = true
      ∧ x = img (pathJoin (pathJoin Script2.IMAGES_DIR d) n) w h)
    ∨ (∃ n, x = tit n) := by
  unfold Script2.traverse at hx
  rw [List.mem_flatMap] at hx
  obtain ⟨e, _, he⟩ := hx
  cases e with
  | file n w h =>
      dsimp only at he
      by_cases hn : Script2.isAllowedImage n = true
      · rw [if_pos hn, List.mem_singleton] at he
        exact Or.inl ⟨n, w, h, hn, he⟩
      · rw [if_neg hn] at he
        simp at he
  | dir n fs =>
      dsimp only at he
      rw [List.mem_cons] at he
      rcases he with he | he
      · exact Or.inr (Or.inr ⟨n, he⟩)
      · rw [List.mem_filterMap] at he
        obtain ⟨f, _, hf⟩ := he
        by_cases hfn : Script2.isAllowedImage f.1 = true
        · rw [if_pos hfn, Option.some_inj] at hf
          exact Or.inr (Or.inl ⟨n, f.1, f.2.1, f.2.2, hfn, hf.symm⟩)
        · rw [if_neg hfn] at hf
          simp at hf

/-- Helper: with a nonzero canvas height the second script's geometry
never raises. -/
theorem fit2_isOk {W H w h : ℕ} (hH : H ≠ 0) :
    ∃ f, Script2.fit_to_canvas W H w h = Except.ok f := by
  simp only [Script2.fit_to_canvas]
  by_cases hz : (decide (w = 0) || decide (h = 0)) = true
  · rw [if_pos hz]
    exact ⟨_, rfl⟩
  · rw [if_neg hz, if_neg hH]
    by_cases hbr : (W : ℚ) / (H : ℚ) > (w : ℚ) / (h : ℚ)
    · rw [if_pos hbr]
      exact ⟨_, rfl⟩
    · rw [if_neg hbr]
      exact ⟨_, rfl⟩

/-- Helper: with a nonzero canvas height, every image slide of the second
script gets the uniform automatic transition. -/
theorem add_image_slide2_transition (W H : ℕ) (hH : H ≠ 0) (path : String) (w h : ℕ) :
    (Script2.add_image_slide W H path w h).transition
      = some (Transition.mk false true (Script2.SLIDE_TRANSITION_SECONDS * 1000)) := by
  obtain ⟨f, hf⟩ := @fit2_isOk W H w h hH
  simp only [Script2.add_image_slide]
  rw [hf]
  cases f <;> rfl

/-- Helper: `add_background_music` only rearranges shapes; each resulting
slide keeps the transition of a slide of the input list. -/
theorem transition_mem_add_music {slides : List Slide} {m : String} {sl : Slide}
    (h : sl ∈ Script2.add_background_music slides m) :
    ∃ s ∈ slides, sl.transition = s.transition := by
  cases slides with
  | nil => simp [Script2.add_background_music] at h
  | cons s rest =>
      unfold Script2.add_background_music at h
      rcases List.mem_cons.mp h with h | h
      · exact ⟨s, List.mem_cons_self s rest, by rw [h]⟩
      · exact ⟨sl, List.mem_cons_of_mem s h, rfl⟩

/-- C5: every slide the second script's run adds — image slides, zero-size
image slides included, and title slides — ends up with the uniform timed
auto-advance of `SLIDE_TRANSITION_SECONDS` (1000 ms) and click-advance
disabled. -/
theorem every_slide_uniform_auto_advance
    (access : Script2.DirAccess) (music : Option (List String)) (sl : Slide)
    (hmem : sl ∈ (Script2.mainRun access music).slides) :
    sl.transition = some (Transition.mk false true (Script2.SLIDE_TRANSITION_SECONDS * 1000)) := by
  cases access with
  | missing => simp [Script2.mainRun] at hmem
  | unlistable => simp [Script2.mainRun] at hmem
  | ok root =>
      have base : ∀ s ∈ Script2.traverse
          (Script2.add_image_slide Script2.SLIDE_WIDTH Script2.SLIDE_HEIGHT)
          Script2.add_title_slide root,
          Slide.transition s
            = some (Transition.mk false true (Script2.SLIDE_TRANSITION_SECONDS * 1000)) := by
        intro s hs
        rcases mem_traverse2_cases _ _ root s hs with
          ⟨n, w, h, _, rfl⟩ | ⟨d, n, w, h, _, rfl⟩ | ⟨n, rfl⟩
        · exact add_image_slide2_transition _ _ (by decide) _ _ _
        · exact add_image_slide2_transition _ _ (by decide) _ _ _
        · rfl
      simp only [Script2.mainRun] at hmem
      rw [apply_ite Script2.RunResult.slides] at hmem
      dsimp only at hmem
      rw [ite_self] at hmem
      rcases hfm : Script2.find_music_file music with _ | m
      · rw [hfm] at hmem
        dsimp only at hmem
        exact base sl hmem
      · rw [hfm] at hmem
        dsimp only at hmem
        split at hmem
        · obtain ⟨s, hs, htr⟩ := transition_mem_add_music hmem
          rw [htr]
          exact base s hs
        · exact base sl hmem

/-- C5 witness: the title slide of a run over one subdirectory carries
the uniform transition. -/
theorem every_slide_uniform_auto_advance_witness :
    Script2.add_title_slide "sub"
      ∈ (Script2.mainRun (Script2.DirAccess.ok [FSEntry.dir "sub" []]) none).slides
    ∧ (Script2.add_title_slide "sub").transition
      = some (Transition.mk false true (Script2.SLIDE_TRANSITION_SECONDS * 1000)) :=
  ⟨by decide,
   every_slide_uniform_auto_advance (Script2.DirAccess.ok [FSEntry.dir "sub" []]) none
     (Script2.add_title_slide "sub") (by decide)⟩

/-- C8: in each script an entry becomes an image slide only when it is a
file whose name passes the case-insensitive allow-list test (`.png`,
`.jpg`, `.jpeg`, `.gif`, `.bmp`, `.tiff`; plus `.tif` in the second
script); unsupported names (`.txt`, `.docx`), at root or in a
subdirectory, never become slides. -/
theorem slides_only_for_allowlisted_files :
    (∀ root e, e ∈ Script1.order root →
      fromAllowedName Script1.isSupportedImage Script1.IMAGE_DIR e)
    ∧ (∀ root e, e ∈ Script2.order root →
      fromAllowedName Script2.isAllowedImage Script2.IMAGES_DIR e)
    ∧ Script1.isSupportedImage "notes.txt" = false
    ∧ Script2.isAllowedImage "Report.DOCX" = false
    ∧ Script1.order [FSEntry.file "notes.txt" 10 10] = []
    ∧ Script2.order [FSEntry.file "a.txt" 1 1, FSEntry.dir "d" [("b.docx", 2, 2)]]
        = [Emitted.title "d"]
    ∧ Script1.isSupportedImage "PHOTO.PNG" = true
    ∧ Script2.isAllowedImage "scan.TIF" = true := by
  refine ⟨?_, ?_, by decide, by decide, by decide, by decide, by decide, by decide⟩
  · intro root e he
    rcases mem_traverse1_cases _ _ root e he with
      ⟨n, w, h, hn, rfl⟩ | ⟨d, n, w, h, hn, rfl⟩ | ⟨n, rfl⟩
    · exact ⟨n, hn, Or.inl rfl⟩
    · exact ⟨n, hn, Or.inr ⟨d, rfl⟩⟩
    · trivial
  · intro root e he
    rcases mem_traverse2_cases _ _ root e he with
      ⟨n, w, h, hn, rfl⟩ | ⟨d, n, w, h, hn, rfl⟩ | ⟨n, rfl⟩
    · exact ⟨n, hn, Or.inl rfl⟩
    · exact ⟨n, hn, Or.inr ⟨d, rfl⟩⟩
    · trivial

/-- C8 witness: a root-level `PHOTO.PNG` becomes an image slide and its
path comes from an allow-listed name. -/
theorem slides_only_for_allowlisted_files_witness :
    Emitted.image (pathJoin Script1.IMAGE_DIR "PHOTO.PNG")
      ∈ Script1.order [FSEntry.file "PHOTO.PNG" 2 2]
    ∧ fromAllowedName Script1.isSupportedImage Script1.IMAGE_DIR
      (Emitted.image (pathJoin Script1.IMAGE_DIR "PHOTO.PNG")) :=
  ⟨by decide,
   slides_only_for_allowlisted_files.1 [FSEntry.file "PHOTO.PNG" 2 2] _ (by decide)⟩

/-- Helper: `charListLe` is total. -/
theorem charListLe_total : ∀ x y, charListLe x y = true ∨ charListLe y x = true := by
  intro x
  induction x with
  | nil => intro y; exact Or.inl rfl
  | cons a as ih =>
      intro y
      cases y with
      | nil => exact Or.inr rfl
      | cons b bs =>
          by_cases hab : a.toNat < b.toNat
          · left
            simp [charListLe, hab]
          · by_cases hba : b.toNat < a.toNat
            · right
              simp [charListLe, hba]
            · rcases ih bs with h | h
              · left
                simp [charListLe, hab, hba, h]
              · right
                simp [charListLe, hab, hba, h]

/-- Helper: a `true` result of `charListLe` means strictly smaller head or
equal head and `true` tail comparison. -/
theorem charListLe_cons_destruct {a b : Char} {as bs : List Char}
    (h : charListLe (a :: as) (b :: bs) = true) :
    a.toNat < b.toNat ∨ (a.toNat = b.toNat ∧ charListLe as bs = true) := by
  by_cases hab : a.toNat < b.toNat
  · exact Or.inl hab
  · by_cases hba : b.toNat < a.toNat
    · simp [charListLe, hab, hba] at h
    · refine Or.inr ⟨Nat.le_antisymm (Nat.not_lt.mp hba) (Nat.not_lt.mp hab), ?_⟩
      simpa [charListLe, hab, hba] using h

/-- Helper: `charListLe` is transitive. -/
theorem charListLe_trans : ∀ x y z, charListLe x y = true → charListLe y z = true →
    charListLe x z = true := by
  intro x
  induction x with
  | nil => intro y z _ _; rfl
  | cons a as ih =>
      intro y z hxy hyz
      cases y with
      | nil => simp [charListLe] at hxy
      | cons b bs =>
          cases z with
          | nil => simp [charListLe] at hyz
          | cons c cs =>
              rcases charListLe_cons_destruct hxy with hab | ⟨hab, hrec1⟩ <;>
                rcases charListLe_cons_destruct hyz with hbc | ⟨hbc, hrec2⟩
              · have : a.toNat < c.toNat := Nat.lt_trans hab hbc
                simp [charListLe, this]
              · have : a.toNat < c.toNat := hbc ▸ hab
                simp [charListLe, this]
              · have : a.toNat < c.toNat := hab ▸ hbc
                simp [charListLe, this]
              · have hac : a.toNat = c.toNat := hab.trans hbc
                simp [charListLe, hac, Nat.lt_irrefl]
                exact ih bs cs hrec1 hrec2

/-- Helper: `charListLe` is antisymmetric. -/
theorem charListLe_antisymm : ∀ x y, charListLe x y = true → charListLe y x = true →
    x = y := by
  intro x
  induction x with
  | nil =>
      intro y _ hyx
      cases y with
      | nil => rfl
      | cons b bs => simp [charListLe] at hyx
  | cons a as ih =>
      intro y hxy hyx
      cases y with
      | nil => simp [charListLe] at hxy
      | cons b bs =>
          rcases charListLe_cons_destruct hxy with hab | ⟨hab, hrec1⟩ <;>
            rcases charListLe_cons_destruct hyx with hba | ⟨hba, hrec2⟩
          · exact absurd hba (Nat.lt_asymm hab)
          · exact absurd hab (by rw [hba]; exact Nat.lt_irrefl _)
          · exact absurd hba (by rw [hab]; exact Nat.lt_irrefl _)
          · have hchar : a = b := by
              apply Char.eq_of_val_eq
              apply UInt32.eq_of_toBitVec_eq
              apply BitVec.eq_of_toNat_eq
              exact hab
            rw [hchar, ih bs hrec1 hrec2]

/-- Helper: `strLe` is total. -/
theorem strLe_total (a b : String) : strLe a b = true ∨ strLe b a = true :=
  charListLe_total a.data b.data

/-- Helper: `strLe` is transitive. -/
theorem strLe_trans {a b c : String} (h1 : strLe a b = true) (h2 : strLe b c = true) :
    strLe a c = true :=
  charListLe_trans a.data b.data c.data h1 h2

/-- Helper: `strLe` is antisymmetric. -/
theorem strLe_antisymm {a b : String} (h1 : strLe a b = true) (h2 : strLe b a = true) :
    a = b := by
  have hd : a.data = b.data := charListLe_antisymm a.data b.data h1 h2
  cases a
  cases b
  exact congrArg String.mk hd

/-- Helper: non-strict comparison plus distinctness gives the strict one. -/
theorem strLt_of_le_ne {a b : String} (h1 : strLe a b = true) (hne : a ≠ b) :
    strLt a b = true := by
  unfold strLt
  rw [h1]
  cases hba : strLe b a
  · rfl
  · exact absurd (strLe_antisymm h1 hba) hne

/-- Helper: the strict comparison is asymmetric. -/
theorem strLt_asymm {a b : String} (h1 : strLt a b = true) (h2 : strLt b a = true) :
    False := by
  simp only [strLt, Bool.and_eq_true, Bool.not_eq_true'] at h1 h2
  rw [h1.2] at h2
  exact Bool.false_ne_true h2.1

/-- Helper: `pySorted` permutes its input. -/
theorem pySorted_perm {α : Type} (key : α → String) (l : List α) :
    (pySorted key l).Perm l :=
  List.perm_insertionSort _ l

/-- Helper: `pySorted` output is sorted by the key comparison. -/
theorem pySorted_pairwise {α : Type} (key : α → String) (l : List α) :
    (pySorted key l).Pairwise (fun a b => strLe (key a) (key b) = true) := by
  haveI : IsTotal α (fun a b => strLe (key a) (key b) = true) :=
    ⟨fun a b => strLe_total (key a) (key b)⟩
  haveI : IsTrans α (fun a b => strLe (key a) (key b) = true) :=
    ⟨fun _ _ _ h1 h2 => strLe_trans h1 h2⟩
  exact List.sorted_insertionSort _ l

/-- Helper: the keys of a key-respecting `filterMap` form a sublist of the
input keys. -/
theorem map_key_filterMap_sublist {α β : Type} (kA : α → String) (kB : β → String)
    (g : α → Option β) (hg : ∀ a b, g a = some b → kB b = kA a) :
    ∀ l : List α, ((l.filterMap g).map kB).Sublist (l.map kA) := by
  intro l
  induction l with
  | nil => simp
  | cons a t ih =>
      cases hga : g a with
      | none =>
          rw [List.filterMap_cons_none hga, List.map_cons]
          exact ih.cons (kA a)
      | some b =>
          rw [List.filterMap_cons_some hga, List.map_cons, List.map_cons, hg a b hga]
          exact ih.cons₂ (kA a)

/-- Helper: key-sortedness plus distinct keys upgrades to strict
key-sortedness. -/
theorem pairwise_strLt_of_nodup {β : Type} (kB : β → String) (l : List β)
    (hp : l.Pairwise (fun a b => strLe (kB a) (kB b) = true))
    (hnd : (l.map kB).Nodup) :
    l.Pairwise (fun a b => strLt (kB a) (kB b) = true) := by
  have hne : l.Pairwise (fun a b => kB a ≠ kB b) := List.pairwise_map.mp hnd
  exact (hp.and hne).imp (fun hb => strLt_of_le_ne hb.1 hb.2)

/-- Helper: on listings with pairwise-distinct keys, filtering after a
key sort equals key-sorting the filtered list (Python's per-listing sort
then filter, versus a specification-side sort of the filtered names). -/
theorem filterMap_pySorted {α β : Type} (kA : α → String) (kB : β → String)
    (g : α → Option β) (hg : ∀ a b, g a = some b → kB b = kA a)
    (l : List α) (hnd : (l.map kA).Nodup) :
    (pySorted kA l).filterMap g = pySorted kB (l.filterMap g) := by
  have p1 : ((pySorted kA l).filterMap g).Perm (l.filterMap g) :=
    (pySorted_perm kA l).filterMap g
  have p2 : (pySorted kB (l.filterMap g)).Perm (l.filterMap g) :=
    pySorted_perm kB (l.filterMap g)
  have s1le : ((pySorted kA l).filterMap g).Pairwise
      (fun a b => strLe (kB a) (kB b) = true) := by
    refine List.Pairwise.filterMap g ?_ (pySorted_pairwise kA l)
    intro a a' hr b hb b' hb'
    rw [Option.mem_def] at hb hb'
    rw [hg a b hb, hg a' b' hb']
    exact hr
  have s2le := pySorted_pairwise kB (l.filterMap g)
  have hnd1 : (((pySorted kA l).filterMap g).map kB).Nodup := by
    have hsub := map_key_filterMap_sublist kA kB g hg (pySorted kA l)
    have hperm : ((pySorted kA l).map kA).Perm (l.map kA) := (pySorted_perm kA l).map kA
    exact hsub.nodup (hperm.nodup_iff.mpr hnd)
  have hnd2 : ((pySorted kB (l.filterMap g)).map kB).Nodup := by
    have hbase : ((l.filterMap g).map kB).Nodup :=
      (map_key_filterMap_sublist kA kB g hg l).nodup hnd
    exact ((pySorted_perm kB (l.filterMap g)).map kB).nodup_iff.mpr hbase
  have s1 := pairwise_strLt_of_nodup kB _ s1le hnd1
  have s2 := pairwise_strLt_of_nodup kB _ s2le hnd2
  haveI : IsAntisymm β (fun a b => strLt (kB a) (kB b) = true) :=
    ⟨fun a b h1 h2 => absurd (strLt_asymm h1 h2) not_false⟩
  exact List.eq_of_perm_of_sorted (p1.trans p2.symm) s1 s2

/-- Helper: a per-entry traversal that contributes a block per extracted
value equals extracting first and then contributing per value. -/
theorem flatMap_filterMap_split {α β γ : Type} (F : α → List γ) (g : α → Option β)
    (G : β → List γ) (h1 : ∀ a, g a = none → F a = [])
    (h2 : ∀ a b, g a = some b → F a = G b) :
    ∀ l : List α, l.flatMap F = (l.filterMap g).flatMap G := by
  intro l
  induction l with
  | nil => simp
  | cons a t ih =>
      cases hga : g a with
      | none =>
          rw [List.filterMap_cons_none hga, List.flatMap_cons, h1 a hga, ih]
          rfl
      | some b =>
          rw [List.filterMap_cons_some hga, List.flatMap_cons, List.flatMap_cons,
            h2 a b hga, ih]

/-- Helper: `flatMap` congruence over members. -/
theorem flatMap_congr_mem {α γ : Type} {f g : α → List γ} :
    ∀ {l : List α}, (∀ a ∈ l, f a = g a) → l.flatMap f = l.flatMap g := by
  intro l
  induction l with
  | nil => intro _; rfl
  | cons a t ih =>
      intro h
      rw [List.flatMap_cons, List.flatMap_cons, h a (List.mem_cons_self a t),
        ih (fun b hb => h b (List.mem_cons_of_mem a hb))]

/-- Helper: the first script's emission equals the specification order
(root images sorted, then each subdirectory sorted with its sorted
images), for listings with pairwise-distinct names. -/
theorem order1_eq_specOrder (root : List FSEntry)
    (hroot : (root.map FSEntry.name).Nodup)
    (hsub : ∀ e ∈ root, ((FSEntry.subFiles e).map (fun f => f.1)).Nodup) :
    Script1.order root = Script1.specOrder root := by
  have hgName : ∀ e n, Script1.rootImageName e = some n → id n = FSEntry.name e := by
    intro e n hn
    cases e with
    | file m w h =>
        simp only [Script1.rootImageName] at hn
        by_cases hm : Script1.isSupportedImage m = true
        · rw [if_pos hm, Option.some_inj] at hn
          rw [← hn]
          rfl
        · rw [if_neg hm] at hn
          exact absurd hn (by simp)
    | dir m fs => exact absurd hn (by simp [Script1.rootImageName])
  have e2 : (sortEntries root).filterMap Script1.rootImageName
      = sortNames (root.filterMap Script1.rootImageName) := by
    simp only [sortEntries, sortNames]
    exact filterMap_pySorted FSEntry.name id Script1.rootImageName hgName root hroot
  have g1 : ((sortEntries root).filterMap fun e =>
      match e with
      | FSEntry.file n w h =>
          if Script1.isSupportedImage n then
            some (Emitted.image (pathJoin Script1.IMAGE_DIR n))
          else none
      | FSEntry.dir _ _ => none)
      = (sortNames (root.filterMap Script1.rootImageName)).map
          (fun n => Emitted.image (pathJoin Script1.IMAGE_DIR n)) := by
    rw [← e2, List.map_filterMap]
    refine List.filterMap_congr ?_
    intro e _
    cases e with
    | file n w h =>
        by_cases hn : Script1.isSupportedImage n = true <;>
          simp [Script1.rootImageName, hn]
    | dir n fs => rfl
  have hgD : ∀ e d, Script1.dirPair e = some d → (fun x => x.1) d = FSEntry.name e := by
    intro e d hd
    cases e with
    | file m w h => simp [Script1.dirPair] at hd
    | dir m fs =>
        have : (m, fs) = d := by simpa [Script1.dirPair] using hd
        rw [← this]
        rfl
  have b2 : (sortEntries root).filterMap Script1.dirPair
      = sortDirs (root.filterMap Script1.dirPair) := by
    simp only [sortEntries, sortDirs]
    exact filterMap_pySorted FSEntry.name (fun x => x.1) Script1.dirPair hgD root hroot
  have b3 : ∀ d ∈ sortDirs (root.filterMap Script1.dirPair),
      (Emitted.title d.1 :: ((sortFiles d.2).filterMap fun f =>
        if Script1.isSupportedImage f.1 then
          some (Emitted.image (pathJoin (pathJoin Script1.IMAGE_DIR d.1) f.1))
        else none))
      = Emitted.title d.1 :: (sortNames (d.2.filterMap Script1.subImageName)).map
          (fun n => Emitted.image (pathJoin (pathJoin Script1.IMAGE_DIR d.1) n)) := by
    intro d hd
    have hd' : d ∈ root.filterMap Script1.dirPair := by
      simp only [sortDirs] at hd
      exact ((pySorted_perm (fun x => x.1) (root.filterMap Script1.dirPair)).mem_iff).mp hd
    rw [List.mem_filterMap] at hd'
    obtain ⟨e, he, hde⟩ := hd'
    have hnd_d : (d.2.map (fun f => f.1)).Nodup := by
      cases e with
      | file m w h => simp [Script1.dirPair] at hde
      | dir m fs =>
          have hpair : (m, fs) = d := by simpa [Script1.dirPair] using hde
          have := hsub (FSEntry.dir m fs) he
          rw [← hpair]
          simpa [FSEntry.subFiles] using this
    have i2 : (sortFiles d.2).filterMap Script1.subImageName
        = sortNames (d.2.filterMap Script1.subImageName) := by
      simp only [sortFiles, sortNames]
      refine filterMap_pySorted (fun f => f.1) id Script1.subImageName ?_ d.2 hnd_d
      intro f n hf
      simp only [Script1.subImageName] at hf
      by_cases hff : Script1.isSupportedImage f.1 = true
      · rw [if_pos hff, Option.some_inj] at hf
        rw [← hf]
        rfl
      · rw [if_neg hff] at hf
        exact absurd hf (by simp)
    have i1 : ((sortFiles d.2).filterMap fun f =>
          if Script1.isSupportedImage f.1 then
            some (Emitted.image (pathJoin (pathJoin Script1.IMAGE_DIR d.1) f.1))
          else none)
        = ((sortFiles d.2).filterMap Script1.subImageName).map
            (fun n => Emitted.image (pathJoin (pathJoin Script1.IMAGE_DIR d.1) n)) := by
      rw [List.map_filterMap]
      refine List.filterMap_congr ?_
      intro f _
      by_cases hff : Script1.isSupportedImage f.1 = true <;>
        simp [Script1.subImageName, hff]
    rw [i1, i2]
  have g2 : ((sortEntries root).flatMap fun e =>
      match e with
      | FSEntry.dir n fs =>
          Emitted.title n :: ((sortFiles fs).filterMap fun f =>
            if Script1.isSupportedImage f.1 then
              some (Emitted.image (pathJoin (pathJoin Script1.IMAGE_DIR n) f.1))
            else none)
      | FSEntry.file _ _ _ => [])
      = (sortDirs (root.filterMap Script1.dirPair)).flatMap (fun d =>
          Emitted.title d.1 :: (sortNames (d.2.filterMap Script1.subImageName)).map
            (fun n => Emitted.image (pathJoin (pathJoin Script1.IMAGE_DIR d.1) n))) := by
    have step1 := flatMap_filterMap_split
      (fun e =>
        match e with
        | FSEntry.dir n fs =>
            Emitted.title n :: ((sortFiles fs).filterMap fun f =>
              if Script1.isSupportedImage f.1 then
                some (Emitted.image (pathJoin (pathJoin Script1.IMAGE_DIR n) f.1))
              else none)
        | FSEntry.file _ _ _ => [])
      Script1.dirPair
      (fun d =>
        Emitted.title d.1 :: ((sortFiles d.2).filterMap fun f =>
          if Script1.isSupportedImage f.1 then
            some (Emitted.image (pathJoin (pathJoin Script1.IMAGE_DIR d.1) f.1))
          else none))
      (by
        intro e hnone
        cases e with
        | file m w h => rfl
        | dir m fs => simp [Script1.dirPair] at hnone)
      (by
        intro e d hd
        cases e with
        | file m w h => simp [Script1.dirPair] at hd
        | dir m fs =>
            have : (m, fs) = d := by simpa [Script1.dirPair] using hd
            rw [← this])
      (sortEntries root)
    rw [step1, b2]
    exact flatMap_congr_mem b3
  exact congrArg₂ (fun x y => x ++ y) g1 g2

/-- C3 counterexample: the second script makes a single sorted pass, so
with root entries `{sub/c.png, z.png}` the subdirectory `sub` (sorting
before `z.png`) contributes its title and image before the root image —
refuting "root-level images all come before any subdirectory content" for
the second script; the first script does put the root image first. -/
theorem slide_order_script2_interleaves :
    Script2.order [FSEntry.dir "sub" [("c.png", 1, 1)], FSEntry.file "z.png" 1 1]
      = [Emitted.title "sub", Emitted.image "images/sub/c.png", Emitted.image "images/z.png"]
    ∧ Script1.order [FSEntry.dir "sub" [("c.png", 1, 1)], FSEntry.file "z.png" 1 1]
      = [Emitted.image "images/z.png", Emitted.title "sub", Emitted.image "images/sub/c.png"] :=
  ⟨by decide, by decide⟩

/-- C3 (amended): in the first script, for every root listing with
pairwise-distinct names, the emitted sequence is exactly: root-level
supported images in lexicographic order, then each subdirectory in
lexicographic order contributing its title slide followed by its
supported images in lexicographic order.  The second script instead makes
a single pass over the sorted root entries, interleaving subdirectories
with root images by name.  On the claim's example root
`{b.png, a.png, sub/c.png}` both scripts emit
`a.png, b.png, title("sub"), c.png`. -/
theorem slide_order_lexicographic (root : List FSEntry)
    (hroot : (root.map FSEntry.name).Nodup)
    (hsub : ∀ e ∈ root, ((FSEntry.subFiles e).map (fun f => f.1)).Nodup) :
    Script1.order root = Script1.specOrder root
    ∧ Script1.order [FSEntry.file "b.png" 4 4, FSEntry.file "a.png" 4 4,
        FSEntry.dir "sub" [("c.png", 4, 4)]]
      = [Emitted.image "images/a.png", Emitted.image "images/b.png",
         Emitted.title "sub", Emitted.image "images/sub/c.png"]
    ∧ Script2.order [FSEntry.file "b.png" 4 4, FSEntry.file "a.png" 4 4,
        FSEntry.dir "sub" [("c.png", 4, 4)]]
      = [Emitted.image "images/a.png", Emitted.image "images/b.png",
         Emitted.title "sub", Emitted.image "images/sub/c.png"] :=
  ⟨order1_eq_specOrder root hroot hsub, by decide, by decide⟩

/-- C3 witness: the amended claim applied at the example root, with the
distinct-name hypotheses checked concretely. -/
theorem slide_order_lexicographic_witness :
    (([FSEntry.file "b.png" 4 4, FSEntry.file "a.png" 4 4,
        FSEntry.dir "sub" [("c.png", 4, 4)]].map FSEntry.name).Nodup)
    ∧ Script1.order [FSEntry.file "b.png" 4 4, FSEntry.file "a.png" 4 4,
        FSEntry.dir "sub" [("c.png", 4, 4)]]
      = Script1.specOrder [FSEntry.file "b.png" 4 4, FSEntry.file "a.png" 4 4,
        FSEntry.dir "sub" [("c.png", 4, 4)]] :=
  ⟨by decide,
   (slide_order_lexicographic [FSEntry.file "b.png" 4 4, FSEntry.file "a.png" 4 4,
      FSEntry.dir "sub" [("c.png", 4, 4)]] (by decide) (by decide)).1⟩
